import Mathlib

/-!
Verification development for the pg data-access helper layer
(single-statement exec/query, transactional batch executor with the
all-must-run and first-success policies, parameter normalization and
result post-processing).

The TypeScript source is embedded shallowly:
JavaScript values that can appear in a parameter list or a result row
become the inductive type JsValue; rows are association lists; the
database client is an oracle giving the outcome (affected-row count or
error) of the i-th statement of the call; every execution path is
modelled as the list of commands dispatched on the session (the trace)
together with the resolved or rejected outcome.  Transaction-control
commands (begin, commit, rollback) are modelled as always succeeding.
-/

namespace Pg

/-- A JavaScript value as it can occur in a parameter list or a result
row: undefined, null, boolean, (integer) number, string, Date
(represented by its timestamp), or a plain object (association list of
fields). -/
inductive JsValue where
  | vundefined : JsValue
  | vnull : JsValue
  | vbool : Bool → JsValue
  | vnum : Int → JsValue
  | vstr : String → JsValue
  | vdate : Int → JsValue
  | vobj : List (String × JsValue) → JsValue

/-- A result row: a JavaScript object, i.e. an ordered association list
of field name / value pairs. -/
abbrev Row := List (String × JsValue)

/-- The StringMap of the source: field-renaming map used by mapArray. -/
abbrev StringMap := List (String × String)

/-- The part of the metadata Attribute used by handleBool: the column
name and the optional explicit true literal (field.true in the
source; the key/version/ignored flags are not consulted by the embedded
functions). -/
structure Attribute where
  name : String
  trueValue : Option JsValue := none

/-- A Statement: SQL text plus an optional ordered parameter list. -/
structure Statement where
  query : String
  params : Option (List JsValue) := none

/-- A JavaScript error object as the embedded code observes it: the
engine error code and the classification field written by buildError
(absent unless set). -/
structure JsError where
  code : String
  error : Option String := none
deriving DecidableEq

/-- buildError: if err.code is the duplicate-key code "23505", set
err.error to "duplicate"; return the error. -/
def buildError (err : JsError) : JsError :=
  if err.code = "23505" then { err with error := some "duplicate" } else err

mutual

/-- JSON.stringify restricted to the embedded value forms (string
escaping of special characters is elided; undefined does not occur
under toArray, which only stringifies objects). -/
def jsonStringify : JsValue → String
  | .vundefined => "null"
  | .vnull => "null"
  | .vbool b => if b then "true" else "false"
  | .vnum n => toString n
  | .vstr s => "\"" ++ s ++ "\""
  | .vdate t => "\"" ++ toString t ++ "\""
  | .vobj fields => "\x7b" ++ jsonFields fields ++ "\x7d"

/-- The comma-separated field list of a stringified object. -/
def jsonFields : List (String × JsValue) → String
  | [] => ""
  | (k, v) :: rest =>
    "\"" ++ k ++ "\":" ++ jsonStringify v ++
      (match rest with
       | [] => ""
       | _ => "," ++ jsonFields rest)

end

/-- The normalization toArray applies to one entry of a parameter list:
undefined and null become an explicit null; a Date passes through; any
other object passes through as-is unless the global
serialize-objects-to-text mode (resource.string, here the explicit
stringMode argument) is enabled, in which case it is JSON-encoded;
primitives pass through. -/
def toArrayOne (stringMode : Bool) (v : JsValue) : JsValue :=
  match v with
  | .vundefined => .vnull
  | .vnull => .vnull
  | .vdate t => .vdate t
  | .vobj fields =>
    if stringMode then .vstr (jsonStringify (.vobj fields)) else .vobj fields
  | x => x

/-- toArray: a missing or empty argument list becomes the empty list;
otherwise every entry is normalized by toArrayOne. -/
def toArray (stringMode : Bool) (arr : Option (List JsValue)) : List JsValue :=
  match arr with
  | none => []
  | some l => l.map (toArrayOne stringMode)

/-- Reading obj[name]: the value of the first binding of the field, or
undefined when the field is absent. -/
def lookupField (row : Row) (name : String) : JsValue :=
  match row with
  | [] => .vundefined
  | (k, v) :: rest => if k = name then v else lookupField rest name

/-- Whether the object has a binding for the field. -/
def containsKey (row : Row) (name : String) : Bool :=
  match row with
  | [] => false
  | (k, _) :: rest => k == name || containsKey rest name

/-- Overwrite every binding of the field with the new value (a
JavaScript object has at most one). -/
def setField : Row → String → JsValue → Row
  | [], _, _ => []
  | (k, w) :: rest, name, v =>
    if k = name then (k, v) :: setField rest name v
    else (k, w) :: setField rest name v

/-- JavaScript property assignment obj[name] = v: overwrite the
existing binding when present, append a new one otherwise. -/
def objSet (row : Row) (name : String) (v : JsValue) : Row :=
  if containsKey row name then setField row name v
  else row ++ [(name, v)]

/-- The key-renaming step of mapArray: let k0 = m[key]; if (!k0)
k0 = key.  An empty-string image is falsy and keeps the original key. -/
def mapKey (m : StringMap) (key : String) : String :=
  match m.lookup key with
  | some k0 => if k0 = "" then key else k0
  | none => key

/-- One row of mapArray: build a fresh object, assigning
obj2[mapKey key] = obj[key] for each key of the row in order. -/
def mapObj (m : StringMap) (row : Row) : Row :=
  row.foldl (fun acc p => objSet acc (mapKey m p.1) p.2) []

/-- mapArray: rename the fields of every row per the field map; a
missing or empty map returns the rows unchanged. -/
def mapArray (results : List Row) (m : Option StringMap) : List Row :=
  match m with
  | none => results
  | some mm => if mm.isEmpty then results else results.map (mapObj mm)

/-- The recognized-truthy test of handleBool for a field without an
explicit true literal.  It mirrors the source's loose-equality chain
("true" == v || "1" == v || "t" == v || "y" == v || "on" == v):
a string compares literally against the five literals; a number is
loosely equal only to "1" (which converts to the number 1; the other
literals are not numeric); dates and objects convert to strings outside
the set; booleans, null and undefined are excluded by the caller's
guard. -/
def recognizedTrue (v : JsValue) : Bool :=
  match v with
  | .vstr s => s == "true" || s == "1" || s == "t" || s == "y" || s == "on"
  | .vnum n => n == 1
  | _ => false

/-- JavaScript ToNumber restricted to the embedded value forms (string
conversion restricted to optional-sign integer numerals; none stands
for NaN). -/
def toNumberForEq : JsValue → Option Int
  | .vnull => some 0
  | .vundefined => none
  | .vbool b => some (if b then 1 else 0)
  | .vnum n => some n
  | .vstr s => if s = "" then some 0 else s.toInt?
  | .vdate t => some t
  | .vobj _ => none

/-- JavaScript loose equality (v == b) restricted to the embedded value
forms, used by the explicit-true-literal branch of handleBool.  Two
distinct objects compare by reference and are modelled unequal; an
object or date against a primitive is modelled false. -/
def looseEq (a b : JsValue) : Bool :=
  match a, b with
  | .vnull, .vnull => true
  | .vnull, .vundefined => true
  | .vundefined, .vnull => true
  | .vundefined, .vundefined => true
  | .vnull, _ => false
  | _, .vnull => false
  | .vundefined, _ => false
  | _, .vundefined => false
  | .vstr x, .vstr y => x == y
  | .vnum x, .vnum y => x == y
  | .vbool x, .vbool y => x == y
  | .vbool _, _ =>
    (match toNumberForEq a, toNumberForEq b with
     | some x, some y => x == y
     | _, _ => false)
  | _, .vbool _ =>
    (match toNumberForEq a, toNumberForEq b with
     | some x, some y => x == y
     | _, _ => false)
  | .vnum _, .vstr _ =>
    (match toNumberForEq a, toNumberForEq b with
     | some x, some y => x == y
     | _, _ => false)
  | .vstr _, .vnum _ =>
    (match toNumberForEq a, toNumberForEq b with
     | some x, some y => x == y
     | _, _ => false)
  | .vdate x, .vdate y => x == y
  | _, _ => false

/-- The negation of handleBool's guard
(typeof v !== "boolean" && v != null && v !== undefined): a value the
loop leaves untouched — a native boolean, null, or undefined (an absent
field reads as undefined). -/
def isStable : JsValue → Bool
  | .vbool _ => true
  | .vnull => true
  | .vundefined => true
  | _ => false

/-- The body of handleBool's inner loop for one attribute: read the
field; when the guard fails (native boolean, null, undefined or absent)
leave the row untouched; otherwise write back the coerced boolean,
using the recognized-truthy set when the attribute has no explicit true
literal and loose equality against the literal otherwise. -/
def coerceOne (field : Attribute) (obj : Row) : Row :=
  let v := lookupField obj field.name
  if isStable v then obj
  else
    match field.trueValue with
    | none => objSet obj field.name (.vbool (recognizedTrue v))
    | some b => objSet obj field.name (.vbool (looseEq v b))

/-- handleBool: for every row and every listed attribute, coerce the
field to a native boolean; an empty attribute list returns the rows
unchanged. -/
def handleBool (objs : List Row) (bools : List Attribute) : List Row :=
  if bools.isEmpty then objs
  else objs.map (fun obj => bools.foldl (fun o f => coerceOne f o) obj)

/-- handleResults: rename the fields first (when a field map is given),
then coerce the booleans (when a non-empty attribute list is given). -/
def handleResults (r : List Row) (m : Option StringMap)
    (bools : Option (List Attribute)) : List Row :=
  match m with
  | some mm =>
    let res := mapArray r (some mm)
    match bools with
    | some bs => if 0 < bs.length then handleBool res bs else res
    | none => res
  | none =>
    match bools with
    | some bs => if 0 < bs.length then handleBool r bs else r
    | none => r

/-! ## Lemmas about object assignment and boolean coercion -/

theorem lookupField_setField (row : Row) (name : String) (v : JsValue) :
    lookupField (setField row name v) name =
      if containsKey row name then v else .vundefined := by
  induction row with
  | nil => rfl
  | cons p rest ih =>
    rcases p with ⟨k, w⟩
    by_cases h : k = name
    · simp [setField, lookupField, containsKey, h]
    · simp [setField, lookupField, containsKey, h, ih]

theorem lookupField_append_absent (row : Row) (name : String) (v : JsValue)
    (h : containsKey row name = false) :
    lookupField (row ++ [(name, v)]) name = v := by
  induction row with
  | nil => simp [lookupField]
  | cons p rest ih =>
    rcases p with ⟨k, w⟩
    simp [containsKey] at h
    simp [lookupField, h.1, ih h.2]

theorem lookupField_objSet_self (row : Row) (name : String) (v : JsValue) :
    lookupField (objSet row name v) name = v := by
  unfold objSet
  by_cases h : containsKey row name <;>
    simp [h, lookupField_setField, lookupField_append_absent]

theorem lookupField_setField_other (row : Row) (name name2 : String)
    (v : JsValue) (h : name2 ≠ name) :
    lookupField (setField row name v) name2 = lookupField row name2 := by
  induction row with
  | nil => rfl
  | cons p rest ih =>
    rcases p with ⟨k, w⟩
    by_cases hp : k = name
    · subst hp; simp [setField, lookupField, Ne.symm h, ih]
    · by_cases hp2 : k = name2
      · subst hp2; simp [setField, lookupField, hp, ih]
      · simp [setField, lookupField, hp, hp2, ih]

theorem lookupField_append_other (row : Row) (name name2 : String)
    (v : JsValue) (h : name2 ≠ name) :
    lookupField (row ++ [(name, v)]) name2 = lookupField row name2 := by
  induction row with
  | nil => simp [lookupField, Ne.symm h]
  | cons p rest ih =>
    rcases p with ⟨k, w⟩
    by_cases hp : k = name2 <;> simp [lookupField, hp, ih]

theorem lookupField_objSet_other (row : Row) (name name2 : String)
    (v : JsValue) (h : name2 ≠ name) :
    lookupField (objSet row name v) name2 = lookupField row name2 := by
  unfold objSet
  by_cases hc : containsKey row name <;>
    simp [hc, lookupField_setField_other _ _ _ _ h,
      lookupField_append_other _ _ _ _ h]

theorem coerceOne_of_stable (f : Attribute) (obj : Row)
    (h : isStable (lookupField obj f.name) = true) : coerceOne f obj = obj := by
  unfold coerceOne
  simp [h]

theorem isStable_lookup_coerceOne_self (f : Attribute) (obj : Row) :
    isStable (lookupField (coerceOne f obj) f.name) = true := by
  by_cases h : isStable (lookupField obj f.name)
  · simp only [coerceOne, h, if_true]
  · simp only [coerceOne, h, if_false]
    cases htv : f.trueValue <;>
      simp [htv, lookupField_objSet_self, isStable]

theorem lookupField_coerceOne_other (f : Attribute) (obj : Row) (n : String)
    (h : n ≠ f.name) :
    lookupField (coerceOne f obj) n = lookupField obj n := by
  by_cases hs : isStable (lookupField obj f.name)
  · simp only [coerceOne, hs, if_true]
  · simp only [coerceOne, hs, if_false]
    cases htv : f.trueValue <;>
      simp [htv, lookupField_objSet_other _ _ _ _ h]

theorem isStable_lookup_coerceOne_preserved (f : Attribute) (obj : Row)
    (n : String) (h : isStable (lookupField obj n) = true) :
    isStable (lookupField (coerceOne f obj) n) = true := by
  by_cases he : n = f.name
  · subst he; rw [coerceOne_of_stable f obj h]; exact h
  · rw [lookupField_coerceOne_other f obj n he]; exact h

theorem foldl_coerce_preserves (bools : List Attribute) (obj : Row)
    (n : String) (h : isStable (lookupField obj n) = true) :
    isStable (lookupField
      (bools.foldl (fun o f => coerceOne f o) obj) n) = true := by
  induction bools generalizing obj with
  | nil => exact h
  | cons f fs ih =>
    exact ih _ (isStable_lookup_coerceOne_preserved f obj n h)

theorem foldl_coerce_stable_all (bools : List Attribute) (obj : Row) :
    ∀ f ∈ bools, isStable (lookupField
      (bools.foldl (fun o f => coerceOne f o) obj) f.name) = true := by
  induction bools generalizing obj with
  | nil => intro f hf; cases hf
  | cons f0 fs ih =>
    intro f hf
    cases hf with
    | head =>
      exact foldl_coerce_preserves fs _ _ (isStable_lookup_coerceOne_self f0 obj)
    | tail _ hf => exact ih _ f hf

theorem foldl_coerce_of_stable (bools : List Attribute) (obj : Row)
    (h : ∀ f ∈ bools, isStable (lookupField obj f.name) = true) :
    bools.foldl (fun o f => coerceOne f o) obj = obj := by
  induction bools with
  | nil => rfl
  | cons f0 fs ih =>
    have h0 : coerceOne f0 obj = obj :=
      coerceOne_of_stable _ _ (h f0 (List.Mem.head _))
    simp only [List.foldl_cons, h0]
    exact ih (fun f hf => h f (List.Mem.tail _ hf))

/-! ## The execution layer

A call is modelled by the trace of commands it dispatches on the
session together with its outcome.  The engine is an oracle mapping the
index of a statement (its position in the statement list of the call)
to an affected-row count or an error; transaction-control commands
(begin, commit, rollback) are modelled as always succeeding. -/

/-- One command dispatched on the session: checking a client out of the
pool, a parameterized statement (tagged with its index in the call's
statement list), the transaction-control commands, and the release of
the client back to the pool. -/
inductive Ev where
  | acquire : Ev
  | stmt : Nat → String → List JsValue → Ev
  | tbegin : Ev
  | tcommit : Ev
  | trollback : Ev
  | release : Ev

/-- The outcome the engine reports for one statement. -/
abbrev Engine := Nat → Except JsError Int

/-- Whether a commit command occurs in a trace. -/
def hasCommit (l : List Ev) : Bool :=
  l.any (fun e => match e with | .tcommit => true | _ => false)

/-- Whether a rollback command occurs in a trace. -/
def hasRollback (l : List Ev) : Bool :=
  l.any (fun e => match e with | .trollback => true | _ => false)

/-- Whether a statement with index at least k is dispatched in a
trace. -/
def hasStmtGe (k : Nat) (l : List Ev) : Bool :=
  l.any (fun e => match e with | .stmt i _ _ => decide (k ≤ i) | _ => false)

/-- How many times the client is released in a trace. -/
def countRelease (l : List Ev) : Nat :=
  l.countP (fun e => match e with | .release => true | _ => false)

/-- The dispatch events of mapping client.query over a statement list
(indices starting at off): with normalize, the parameter list is passed
through toArray (the all-must-run branches and the gating statement);
without it, the raw list is passed, a missing list replaced by the
empty list (item.params ? item.params : [], the trailing statements of
a firstSuccess batch). -/
def dispatchEvs (stringMode normalize : Bool) (off : Nat) :
    List Statement → List Ev
  | [] => []
  | s :: rest =>
    Ev.stmt off s.query
        (if normalize then toArray stringMode s.params else s.params.getD []) ::
      dispatchEvs stringMode normalize (off + 1) rest

/-- The aggregation of Promise.all over the statements at indices
off, off+1, ..., off+n-1: the error of the earliest failing statement
(the queries execute serially in dispatch order on the one session), or
the sum of the affected-row counts when all succeed. -/
def collectFrom (oracle : Engine) (off n : Nat) : Except JsError Int :=
  match n with
  | 0 => .ok 0
  | m + 1 =>
    match oracle off with
    | .error e => .error e
    | .ok k =>
      match collectFrom oracle (off + 1) m with
      | .error e => .error e
      | .ok s => .ok (k + s)

/-- exec: normalize the arguments with toArray, dispatch the single
statement; on error annotate it with buildError and reject, otherwise
resolve the affected-row count. -/
def execM (stringMode : Bool) (outcome : Except JsError Int) (sql : String)
    (args : Option (List JsValue)) : List Ev × Except JsError Int :=
  ([Ev.stmt 0 sql (toArray stringMode args)],
   match outcome with
   | .error e => .error (buildError e)
   | .ok n => .ok n)

/-- query: normalize the arguments with toArray, dispatch the single
statement; on error reject the engine error unchanged (query does not
call buildError), otherwise resolve the rows post-processed by
handleResults. -/
def queryM (stringMode : Bool) (outcome : Except JsError (List Row))
    (sql : String) (args : Option (List JsValue)) (m : Option StringMap)
    (bools : Option (List Attribute)) : List Ev × Except JsError (List Row) :=
  ([Ev.stmt 0 sql (toArray stringMode args)],
   match outcome with
   | .error e => .error e
   | .ok rows => .ok (handleResults rows m bools))

/-- execBatch on a pool.  An empty list resolves 0 at once; a single
statement goes through exec on the pool (whose argument list is itself
pre-normalized at the call site, hence toArray twice), with no explicit
transaction; otherwise a client is checked out and the transaction run
on it, the client released in the finally block of either policy.
With firstSuccess, the gating statement is dispatched with normalized
parameters; when it reports a non-zero count the remaining statements
are all dispatched with their raw parameter lists and their counts
summed with the gate's before commit; a zero count falls through the
gate — no further dispatch, no commit, the call resolves undefined.
Any error is annotated by buildError, rollback is dispatched and the
error re-thrown.  Without firstSuccess, every statement is dispatched
with normalized parameters, the counts are summed and committed; on the
first error rollback is dispatched and the error re-thrown unchanged.
The resolved value is modelled as Option Int, none standing for the
undefined of the gate-miss fall-through. -/
def execBatchM (stringMode : Bool) (oracle : Engine)
    (statements : List Statement) (firstSuccess : Bool) :
    List Ev × Except JsError (Option Int) :=
  match statements with
  | [] => ([], .ok (some 0))
  | [s0] =>
    ([Ev.stmt 0 s0.query (toArray stringMode (some (toArray stringMode s0.params)))],
     match oracle 0 with
     | .error e => .error (buildError e)
     | .ok n => .ok (some n))
  | s0 :: s1 :: rest =>
    if firstSuccess then
      let p0 := toArray stringMode s0.params
      match oracle 0 with
      | .error e =>
        ([.acquire, .tbegin, .stmt 0 s0.query p0, .trollback, .release],
         .error (buildError e))
      | .ok n0 =>
        if n0 = 0 then
          ([.acquire, .tbegin, .stmt 0 s0.query p0, .release], .ok none)
        else
          let subs := dispatchEvs stringMode false 1 (s1 :: rest)
          match collectFrom oracle 1 (s1 :: rest).length with
          | .error e =>
            ([.acquire, .tbegin, .stmt 0 s0.query p0] ++ subs ++
               [.trollback, .release],
             .error (buildError e))
          | .ok s =>
            ([.acquire, .tbegin, .stmt 0 s0.query p0] ++ subs ++
               [.tcommit, .release],
             .ok (some (s + n0)))
    else
      let evs := dispatchEvs stringMode true 0 (s0 :: s1 :: rest)
      match collectFrom oracle 0 (s0 :: s1 :: rest).length with
      | .error e =>
        ([.acquire, .tbegin] ++ evs ++ [.trollback, .release], .error e)
      | .ok s =>
        ([.acquire, .tbegin] ++ evs ++ [.tcommit, .release], .ok (some s))

/-- execBatchWithClient on an already-checked-out client.  Same shape
as execBatch except: no checkout event (the client is passed in, though
it is still released in the finally blocks); the single-statement path
passes the raw parameter list to exec (one toArray, inside exec); and
neither error path of the transaction branches calls buildError. -/
def execBatchWithClientM (stringMode : Bool) (oracle : Engine)
    (statements : List Statement) (firstSuccess : Bool) :
    List Ev × Except JsError (Option Int) :=
  match statements with
  | [] => ([], .ok (some 0))
  | [s0] =>
    ([Ev.stmt 0 s0.query (toArray stringMode s0.params)],
     match oracle 0 with
     | .error e => .error (buildError e)
     | .ok n => .ok (some n))
  | s0 :: s1 :: rest =>
    if firstSuccess then
      let p0 := toArray stringMode s0.params
      match oracle 0 with
      | .error e =>
        ([.tbegin, .stmt 0 s0.query p0, .trollback, .release], .error e)
      | .ok n0 =>
        if n0 = 0 then
          ([.tbegin, .stmt 0 s0.query p0, .release], .ok none)
        else
          let subs := dispatchEvs stringMode false 1 (s1 :: rest)
          match collectFrom oracle 1 (s1 :: rest).length with
          | .error e =>
            ([.tbegin, .stmt 0 s0.query p0] ++ subs ++ [.trollback, .release],
             .error e)
          | .ok s =>
            ([.tbegin, .stmt 0 s0.query p0] ++ subs ++ [.tcommit, .release],
             .ok (some (s + n0)))
    else
      let evs := dispatchEvs stringMode true 0 (s0 :: s1 :: rest)
      match collectFrom oracle 0 (s0 :: s1 :: rest).length with
      | .error e =>
        ([.tbegin] ++ evs ++ [.trollback, .release], .error e)
      | .ok s =>
        ([.tbegin] ++ evs ++ [.tcommit, .release], .ok (some s))

/-! ## Trace bookkeeping lemmas -/

theorem hasCommit_append (a b : List Ev) :
    hasCommit (a ++ b) = (hasCommit a || hasCommit b) := by
  simp [hasCommit]

theorem hasRollback_append (a b : List Ev) :
    hasRollback (a ++ b) = (hasRollback a || hasRollback b) := by
  simp [hasRollback]

theorem hasStmtGe_append (k : Nat) (a b : List Ev) :
    hasStmtGe k (a ++ b) = (hasStmtGe k a || hasStmtGe k b) := by
  simp [hasStmtGe]

theorem countRelease_append (a b : List Ev) :
    countRelease (a ++ b) = countRelease a + countRelease b := by
  simp [countRelease]

theorem hasCommit_dispatchEvs (sm nm : Bool) (off : Nat)
    (l : List Statement) : hasCommit (dispatchEvs sm nm off l) = false := by
  induction l generalizing off with
  | nil => rfl
  | cons s rest ih => simp [dispatchEvs, hasCommit] at ih ⊢; exact ih _

theorem hasRollback_dispatchEvs (sm nm : Bool) (off : Nat)
    (l : List Statement) : hasRollback (dispatchEvs sm nm off l) = false := by
  induction l generalizing off with
  | nil => rfl
  | cons s rest ih => simp [dispatchEvs, hasRollback] at ih ⊢; exact ih _

theorem countRelease_dispatchEvs (sm nm : Bool) (off : Nat)
    (l : List Statement) : countRelease (dispatchEvs sm nm off l) = 0 := by
  induction l generalizing off with
  | nil => rfl
  | cons s rest ih => simp [dispatchEvs, countRelease] at ih ⊢; exact ih _

theorem mem_dispatchEvs (sm nm : Bool) (off : Nat) (l : List Statement) :
    ∀ e ∈ dispatchEvs sm nm off l, ∃ i q p, e = Ev.stmt i q p := by
  induction l generalizing off with
  | nil => intro e he; cases he
  | cons s rest ih =>
    intro e he
    cases he with
    | head => exact ⟨off, _, _, rfl⟩
    | tail _ h => exact ih _ e h

theorem stmt_mem_dispatchEvs (sm nm : Bool) (i : Nat) (q : String)
    (p : List JsValue) :
    ∀ (l : List Statement) (off : Nat), Ev.stmt i q p ∈ dispatchEvs sm nm off l →
      ∃ j s, l.get? j = some s ∧ i = off + j ∧ q = s.query ∧
        p = (if nm then toArray sm s.params else s.params.getD []) := by
  intro l
  induction l with
  | nil => intro off h; cases h
  | cons s rest ih =>
    intro off h
    cases h with
    | head =>
      exact ⟨0, s, rfl, by omega, rfl, rfl⟩
    | tail _ h =>
      obtain ⟨j, s2, hget, hi, hq, hp⟩ := ih (off + 1) h
      exact ⟨j + 1, s2, by simpa using hget, by omega, hq, hp⟩

theorem collectFrom_ok (oracle : Engine) :
    ∀ (n off : Nat) (cnt : Nat → Int),
      (∀ i, i < n → oracle (off + i) = .ok (cnt i)) →
      collectFrom oracle off n = .ok (((List.range n).map cnt).sum) := by
  intro n
  induction n with
  | zero => intro off cnt _; rfl
  | succ m ih =>
    intro off cnt h
    have h0 : oracle off = .ok (cnt 0) := by
      have := h 0 (Nat.succ_pos m); simpa using this
    have hrec : collectFrom oracle (off + 1) m =
        .ok (((List.range m).map (fun i => cnt (i + 1))).sum) := by
      apply ih (off + 1) (fun i => cnt (i + 1))
      intro i hi
      have := h (i + 1) (Nat.succ_lt_succ hi)
      simpa [Nat.add_assoc, Nat.add_comm 1 i] using this
    simp only [collectFrom, h0, hrec, List.range_succ_eq_map, List.map_cons,
      List.map_map, List.sum_cons, Except.ok.injEq]
    rfl

theorem collectFrom_err (oracle : Engine) (e : JsError) :
    ∀ (n off j : Nat), j < n → oracle (off + j) = .error e →
      (∀ i, i < j → ∃ k, oracle (off + i) = .ok k) →
      collectFrom oracle off n = .error e := by
  intro n
  induction n with
  | zero => intro off j hj; omega
  | succ m ih =>
    intro off j hj herr hok
    cases j with
    | zero =>
      have h0 : oracle off = .error e := by simpa using herr
      simp [collectFrom, h0]
    | succ j =>
      obtain ⟨k, hk⟩ := hok 0 (Nat.succ_pos j)
      have h0 : oracle off = .ok k := by simpa using hk
      have hrec : collectFrom oracle (off + 1) m = .error e := by
        apply ih (off + 1) j (Nat.lt_of_succ_lt_succ hj)
        · have := herr; rw [Nat.add_succ] at this
          simpa [Nat.add_assoc, Nat.add_comm 1 j] using this
        · intro i hi
          obtain ⟨k2, hk2⟩ := hok (i + 1) (Nat.succ_lt_succ hi)
          refine ⟨k2, ?_⟩
          rw [Nat.add_succ] at hk2
          simpa [Nat.add_assoc, Nat.add_comm 1 i] using hk2
      simp [collectFrom, h0, hrec]

/-! ## Claims about the batch executor -/

/-- Claim C1: for every statement list of length at least 2 executed
with firstSuccess = true, by execBatch or by execBatchWithClient, if
the first statement reports zero affected rows then none of the
remaining statements is ever dispatched to the session (no statement
event of index 1 or more occurs in the trace) and no commit command is
ever issued in that call. -/
theorem c1_gate_miss_blocks_rest_and_commit (sm : Bool) (oracle : Engine)
    (s0 s1 : Statement) (rest : List Statement)
    (h0 : oracle 0 = .ok 0) :
    hasStmtGe 1 (execBatchM sm oracle (s0 :: s1 :: rest) true).1 = false ∧
    hasCommit (execBatchM sm oracle (s0 :: s1 :: rest) true).1 = false ∧
    hasStmtGe 1 (execBatchWithClientM sm oracle (s0 :: s1 :: rest) true).1 = false ∧
    hasCommit (execBatchWithClientM sm oracle (s0 :: s1 :: rest) true).1 = false := by
  simp [execBatchM, execBatchWithClientM, h0, hasStmtGe, hasCommit]

/-- Witness for C1 at a concrete two-statement batch whose first
statement affects zero rows. -/
theorem c1_witness :
    hasStmtGe 1 (execBatchM false (fun _ => .ok 0)
      [⟨"a", none⟩, ⟨"b", none⟩] true).1 = false ∧
    hasCommit (execBatchM false (fun _ => .ok 0)
      [⟨"a", none⟩, ⟨"b", none⟩] true).1 = false ∧
    hasStmtGe 1 (execBatchWithClientM false (fun _ => .ok 0)
      [⟨"a", none⟩, ⟨"b", none⟩] true).1 = false ∧
    hasCommit (execBatchWithClientM false (fun _ => .ok 0)
      [⟨"a", none⟩, ⟨"b", none⟩] true).1 = false :=
  c1_gate_miss_blocks_rest_and_commit false (fun _ => .ok 0)
    ⟨"a", none⟩ ⟨"b", none⟩ [] rfl

/-- Claim C10: with firstSuccess = true and at least two statements,
when the first statement reports zero affected rows the call resolves
undefined (modelled none, in particular not some 0), and neither a
commit nor an explicit rollback command is issued on the session,
for both execBatch and execBatchWithClient. -/
theorem c10_gate_miss_returns_undefined (sm : Bool) (oracle : Engine)
    (s0 s1 : Statement) (rest : List Statement)
    (h0 : oracle 0 = .ok 0) :
    (execBatchM sm oracle (s0 :: s1 :: rest) true).2 = .ok none ∧
    hasCommit (execBatchM sm oracle (s0 :: s1 :: rest) true).1 = false ∧
    hasRollback (execBatchM sm oracle (s0 :: s1 :: rest) true).1 = false ∧
    (execBatchWithClientM sm oracle (s0 :: s1 :: rest) true).2 = .ok none ∧
    hasCommit (execBatchWithClientM sm oracle (s0 :: s1 :: rest) true).1 = false ∧
    hasRollback (execBatchWithClientM sm oracle (s0 :: s1 :: rest) true).1 = false := by
  simp [execBatchM, execBatchWithClientM, h0, hasCommit, hasRollback]

/-- Witness for C10 at a concrete two-statement batch whose first
statement affects zero rows. -/
theorem c10_witness :
    (execBatchM false (fun _ => .ok 0)
      [⟨"a", none⟩, ⟨"b", none⟩] true).2 = .ok none ∧
    hasCommit (execBatchM false (fun _ => .ok 0)
      [⟨"a", none⟩, ⟨"b", none⟩] true).1 = false ∧
    hasRollback (execBatchM false (fun _ => .ok 0)
      [⟨"a", none⟩, ⟨"b", none⟩] true).1 = false ∧
    (execBatchWithClientM false (fun _ => .ok 0)
      [⟨"a", none⟩, ⟨"b", none⟩] true).2 = .ok none ∧
    hasCommit (execBatchWithClientM false (fun _ => .ok 0)
      [⟨"a", none⟩, ⟨"b", none⟩] true).1 = false ∧
    hasRollback (execBatchWithClientM false (fun _ => .ok 0)
      [⟨"a", none⟩, ⟨"b", none⟩] true).1 = false :=
  c10_gate_miss_returns_undefined false (fun _ => .ok 0)
    ⟨"a", none⟩ ⟨"b", none⟩ [] rfl

/-- Claim C3: for every batch of at least two statements (the case
where a session is pinned for the transaction), with either policy,
under every engine behaviour — success, gate-miss, or error — the
session is released exactly once, in both execBatch and
execBatchWithClient. -/
theorem c3_release_exactly_once (sm : Bool) (oracle : Engine)
    (fs : Bool) (s0 s1 : Statement) (rest : List Statement) :
    countRelease (execBatchM sm oracle (s0 :: s1 :: rest) fs).1 = 1 ∧
    countRelease (execBatchWithClientM sm oracle (s0 :: s1 :: rest) fs).1 = 1 := by
  cases fs with
  | false =>
    rcases hc : collectFrom oracle 0 (rest.length + 1 + 1) with e | s <;>
      simp [execBatchM, execBatchWithClientM, hc, countRelease_append,
        countRelease_dispatchEvs, countRelease] <;>
      (intro a ha; rcases mem_dispatchEvs _ _ _ _ a ha with ⟨i, q, p, rfl⟩; rfl)
  | true =>
    rcases ho : oracle 0 with e | n
    · simp [execBatchM, execBatchWithClientM, ho, countRelease]
    · by_cases hn : n = 0
      · simp [execBatchM, execBatchWithClientM, ho, hn, countRelease]
      · rcases hc : collectFrom oracle 1 (rest.length + 1) with e | s <;>
          simp [execBatchM, execBatchWithClientM, ho, hn, hc,
            countRelease_append, countRelease_dispatchEvs, countRelease] <;>
          (intro a ha; rcases mem_dispatchEvs _ _ _ _ a ha with ⟨i, q, p, rfl⟩; rfl)

/-- Witness for C3 at a concrete two-statement batch. -/
theorem c3_witness :
    countRelease (execBatchM false (fun _ => .ok 1)
      [⟨"a", none⟩, ⟨"b", none⟩] true).1 = 1 ∧
    countRelease (execBatchWithClientM false (fun _ => .ok 1)
      [⟨"a", none⟩, ⟨"b", none⟩] true).1 = 1 :=
  c3_release_exactly_once false (fun _ => .ok 1) true ⟨"a", none⟩ ⟨"b", none⟩ []

/-- Claim C2: for every statement list of length at least 2 executed
with firstSuccess = false, by execBatch or by execBatchWithClient:
when every statement succeeds, the call issues commit (and no rollback)
and resolves the sum of all reported affected-row counts; when a
statement fails (the earliest failure being the one Promise.all
surfaces), the call issues rollback, never issues commit, and rejects
with the original engine error unchanged, carrying no partial count —
together with the rollback this leaves the store as if no statement had
run. -/
theorem c2_all_or_nothing (sm : Bool) (oracle : Engine)
    (s0 s1 : Statement) (rest : List Statement) :
    (∀ (cnt : Nat → Int),
      (∀ i, i < rest.length + 2 → oracle i = .ok (cnt i)) →
      (execBatchM sm oracle (s0 :: s1 :: rest) false).2 =
        .ok (some (((List.range (rest.length + 2)).map cnt).sum)) ∧
      hasCommit (execBatchM sm oracle (s0 :: s1 :: rest) false).1 = true ∧
      hasRollback (execBatchM sm oracle (s0 :: s1 :: rest) false).1 = false ∧
      (execBatchWithClientM sm oracle (s0 :: s1 :: rest) false).2 =
        .ok (some (((List.range (rest.length + 2)).map cnt).sum)) ∧
      hasCommit (execBatchWithClientM sm oracle (s0 :: s1 :: rest) false).1 = true ∧
      hasRollback (execBatchWithClientM sm oracle (s0 :: s1 :: rest) false).1 = false) ∧
    (∀ (j : Nat) (e : JsError),
      j < rest.length + 2 → oracle j = .error e →
      (∀ i, i < j → ∃ k, oracle i = .ok k) →
      (execBatchM sm oracle (s0 :: s1 :: rest) false).2 = .error e ∧
      hasRollback (execBatchM sm oracle (s0 :: s1 :: rest) false).1 = true ∧
      hasCommit (execBatchM sm oracle (s0 :: s1 :: rest) false).1 = false ∧
      (execBatchWithClientM sm oracle (s0 :: s1 :: rest) false).2 = .error e ∧
      hasRollback (execBatchWithClientM sm oracle (s0 :: s1 :: rest) false).1 = true ∧
      hasCommit (execBatchWithClientM sm oracle (s0 :: s1 :: rest) false).1 = false) := by
  constructor
  · intro cnt h
    have hc : collectFrom oracle 0 (rest.length + 1 + 1) =
        .ok (((List.range (rest.length + 2)).map cnt).sum) := by
      have := collectFrom_ok oracle (rest.length + 2) 0 cnt
        (by intro i hi; simpa using h i hi)
      simpa using this
    simp [execBatchM, execBatchWithClientM, hc, hasCommit, hasRollback] <;>
      (intro a ha; rcases mem_dispatchEvs _ _ _ _ a ha with ⟨i, q, p, rfl⟩; rfl)
  · intro j e hj he hok
    have hc : collectFrom oracle 0 (rest.length + 1 + 1) = .error e := by
      have := collectFrom_err oracle e (rest.length + 2) 0 j hj
        (by simpa using he) (by intro i hi; simpa using hok i hi)
      simpa using this
    simp [execBatchM, execBatchWithClientM, hc, hasCommit, hasRollback] <;>
      (intro a ha; rcases mem_dispatchEvs _ _ _ _ a ha with ⟨i, q, p, rfl⟩; rfl)

/-- Witness for C2: a two-statement batch where both statements affect
2 rows resolves 4 after commit; one where the second statement fails
rejects with the original error after rollback. -/
theorem c2_witness :
    ((execBatchM false (fun _ => .ok 2) [⟨"a", none⟩, ⟨"b", none⟩] false).2 =
        .ok (some 4) ∧
      hasCommit (execBatchM false (fun _ => .ok 2)
        [⟨"a", none⟩, ⟨"b", none⟩] false).1 = true ∧
      hasRollback (execBatchM false (fun _ => .ok 2)
        [⟨"a", none⟩, ⟨"b", none⟩] false).1 = false ∧
      (execBatchWithClientM false (fun _ => .ok 2)
        [⟨"a", none⟩, ⟨"b", none⟩] false).2 = .ok (some 4) ∧
      hasCommit (execBatchWithClientM false (fun _ => .ok 2)
        [⟨"a", none⟩, ⟨"b", none⟩] false).1 = true ∧
      hasRollback (execBatchWithClientM false (fun _ => .ok 2)
        [⟨"a", none⟩, ⟨"b", none⟩] false).1 = false) ∧
    ((execBatchM false (fun i => if i = 0 then .ok 2 else .error ⟨"40001", none⟩)
        [⟨"a", none⟩, ⟨"b", none⟩] false).2 = .error ⟨"40001", none⟩ ∧
      hasRollback (execBatchM false
        (fun i => if i = 0 then .ok 2 else .error ⟨"40001", none⟩)
        [⟨"a", none⟩, ⟨"b", none⟩] false).1 = true ∧
      hasCommit (execBatchM false
        (fun i => if i = 0 then .ok 2 else .error ⟨"40001", none⟩)
        [⟨"a", none⟩, ⟨"b", none⟩] false).1 = false ∧
      (execBatchWithClientM false
        (fun i => if i = 0 then .ok 2 else .error ⟨"40001", none⟩)
        [⟨"a", none⟩, ⟨"b", none⟩] false).2 = .error ⟨"40001", none⟩ ∧
      hasRollback (execBatchWithClientM false
        (fun i => if i = 0 then .ok 2 else .error ⟨"40001", none⟩)
        [⟨"a", none⟩, ⟨"b", none⟩] false).1 = true ∧
      hasCommit (execBatchWithClientM false
        (fun i => if i = 0 then .ok 2 else .error ⟨"40001", none⟩)
        [⟨"a", none⟩, ⟨"b", none⟩] false).1 = false) :=
  ⟨(c2_all_or_nothing false (fun _ => .ok 2) ⟨"a", none⟩ ⟨"b", none⟩ []).1
      (fun _ => 2) (fun _ _ => rfl),
   (c2_all_or_nothing false
      (fun i => if i = 0 then .ok 2 else .error ⟨"40001", none⟩)
      ⟨"a", none⟩ ⟨"b", none⟩ []).2 1 ⟨"40001", none⟩ (by omega) rfl
      (fun i hi => ⟨2, by have h0 : i = 0 := by omega
                          subst h0; rfl⟩)⟩

/-- Counterexample to claim C4: in a firstSuccess batch whose gate
succeeds, the second statement is dispatched with its raw parameter
list — the undefined entry reaches the session as undefined, although
the normalization of that list would have turned it into an explicit
null. -/
theorem c4_counterexample :
    (execBatchM false (fun _ => .ok 1)
      [⟨"s0", some []⟩, ⟨"s1", some [.vundefined]⟩] true).1 =
      [.acquire, .tbegin, .stmt 0 "s0" [], .stmt 1 "s1" [.vundefined],
       .tcommit, .release] ∧
    toArray false (some [.vundefined]) = [.vnull] ∧
    JsValue.vundefined ≠ JsValue.vnull :=
  ⟨rfl, rfl, fun h => nomatch h⟩

/-- Claim C4 as amended: the toArray normalization (undefined and null
entries become explicit nulls, Dates pass through, other objects pass
through unless the serialize-objects-to-text mode is enabled, in which
case they are JSON-encoded) is applied to the parameter lists of exec
and query, to every statement of an all-must-run (firstSuccess = false)
batch in both executors, and to the gating statement of a firstSuccess
batch; the remaining statements of a firstSuccess batch are dispatched
with their raw parameter lists, a missing list replaced by the empty
list, without normalization. -/
theorem c4_amended_normalization (sm : Bool) :
    (toArrayOne sm .vundefined = .vnull) ∧
    (toArrayOne sm .vnull = .vnull) ∧
    (∀ t, toArrayOne sm (.vdate t) = .vdate t) ∧
    (∀ f, toArrayOne false (.vobj f) = .vobj f) ∧
    (∀ f, toArrayOne true (.vobj f) = .vstr (jsonStringify (.vobj f))) ∧
    (∀ l, toArray sm (some l) = l.map (toArrayOne sm)) ∧
    (∀ outcome sql args,
      (execM sm outcome sql args).1 = [Ev.stmt 0 sql (toArray sm args)]) ∧
    (∀ outcome sql args m bools,
      (queryM sm outcome sql args m bools).1 = [Ev.stmt 0 sql (toArray sm args)]) ∧
    (∀ (oracle : Engine) (s0 s1 : Statement) (rest : List Statement) i q p,
      Ev.stmt i q p ∈ (execBatchM sm oracle (s0 :: s1 :: rest) false).1 →
      ∃ s, (s0 :: s1 :: rest).get? i = some s ∧ q = s.query ∧
        p = toArray sm s.params) ∧
    (∀ (oracle : Engine) (s0 s1 : Statement) (rest : List Statement) i q p,
      Ev.stmt i q p ∈ (execBatchWithClientM sm oracle (s0 :: s1 :: rest) false).1 →
      ∃ s, (s0 :: s1 :: rest).get? i = some s ∧ q = s.query ∧
        p = toArray sm s.params) ∧
    (∀ (oracle : Engine) (s0 s1 : Statement) (rest : List Statement) i q p,
      Ev.stmt i q p ∈ (execBatchM sm oracle (s0 :: s1 :: rest) true).1 →
      (i = 0 → q = s0.query ∧ p = toArray sm s0.params) ∧
      (∀ s, 1 ≤ i → (s0 :: s1 :: rest).get? i = some s →
        q = s.query ∧ p = s.params.getD [])) ∧
    (∀ (oracle : Engine) (s0 s1 : Statement) (rest : List Statement) i q p,
      Ev.stmt i q p ∈ (execBatchWithClientM sm oracle (s0 :: s1 :: rest) true).1 →
      (i = 0 → q = s0.query ∧ p = toArray sm s0.params) ∧
      (∀ s, 1 ≤ i → (s0 :: s1 :: rest).get? i = some s →
        q = s.query ∧ p = s.params.getD [])) := by
  refine ⟨rfl, rfl, fun t => rfl, fun f => rfl, fun f => rfl, fun l => rfl,
    fun _ _ _ => rfl, fun _ _ _ _ _ => rfl, ?_, ?_, ?_, ?_⟩
  · intro oracle s0 s1 rest i q p hmem
    rcases hc : collectFrom oracle 0 (rest.length + 1 + 1) with e | s <;>
      simp [execBatchM, hc] at hmem <;>
    · obtain ⟨j, s2, hget, hi, hq, hp⟩ :=
        stmt_mem_dispatchEvs sm true i q p _ 0 hmem
      exact ⟨s2, by simpa [hi] using hget, hq, by simpa using hp⟩
  · intro oracle s0 s1 rest i q p hmem
    rcases hc : collectFrom oracle 0 (rest.length + 1 + 1) with e | s <;>
      simp [execBatchWithClientM, hc] at hmem <;>
    · obtain ⟨j, s2, hget, hi, hq, hp⟩ :=
        stmt_mem_dispatchEvs sm true i q p _ 0 hmem
      exact ⟨s2, by simpa [hi] using hget, hq, by simpa using hp⟩
  · intro oracle s0 s1 rest i q p hmem
    have head_case : i = 0 ∧ q = s0.query ∧ p = toArray sm s0.params →
        (i = 0 → q = s0.query ∧ p = toArray sm s0.params) ∧
        (∀ s, 1 ≤ i → (s0 :: s1 :: rest).get? i = some s →
          q = s.query ∧ p = s.params.getD []) :=
      fun ⟨hi, hq, hp⟩ =>
        ⟨fun _ => ⟨hq, hp⟩, fun s h1 _ => absurd (hi ▸ h1) (by omega)⟩
    rcases ho : oracle 0 with e | n
    · simp [execBatchM, ho] at hmem
      exact head_case hmem
    · by_cases hn : n = 0
      · simp [execBatchM, ho, hn] at hmem
        exact head_case hmem
      · rcases hc : collectFrom oracle 1 (rest.length + 1) with e | s <;>
          simp [execBatchM, ho, hn, hc] at hmem <;>
        · rcases hmem with hm | h
          · exact head_case hm
          · obtain ⟨j, s2, hget, hi, hq, hp⟩ :=
              stmt_mem_dispatchEvs sm false i q p _ 1 h
            refine ⟨fun h0 => absurd (h0 ▸ hi) (by omega), fun s h1 hget2 => ?_⟩
            have hj : (s1 :: rest).get? j = some s := by
              have hij : i = j + 1 := by omega
              simpa [hij] using hget2
            have hs : s = s2 := by rw [hj] at hget; exact Option.some.inj hget
            exact ⟨hs ▸ hq, by simpa [hs] using hp⟩
  · intro oracle s0 s1 rest i q p hmem
    have head_case : i = 0 ∧ q = s0.query ∧ p = toArray sm s0.params →
        (i = 0 → q = s0.query ∧ p = toArray sm s0.params) ∧
        (∀ s, 1 ≤ i → (s0 :: s1 :: rest).get? i = some s →
          q = s.query ∧ p = s.params.getD []) :=
      fun ⟨hi, hq, hp⟩ =>
        ⟨fun _ => ⟨hq, hp⟩, fun s h1 _ => absurd (hi ▸ h1) (by omega)⟩
    rcases ho : oracle 0 with e | n
    · simp [execBatchWithClientM, ho] at hmem
      exact head_case hmem
    · by_cases hn : n = 0
      · simp [execBatchWithClientM, ho, hn] at hmem
        exact head_case hmem
      · rcases hc : collectFrom oracle 1 (rest.length + 1) with e | s <;>
          simp [execBatchWithClientM, ho, hn, hc] at hmem <;>
        · rcases hmem with hm | h
          · exact head_case hm
          · obtain ⟨j, s2, hget, hi, hq, hp⟩ :=
              stmt_mem_dispatchEvs sm false i q p _ 1 h
            refine ⟨fun h0 => absurd (h0 ▸ hi) (by omega), fun s h1 hget2 => ?_⟩
            have hj : (s1 :: rest).get? j = some s := by
              have hij : i = j + 1 := by omega
              simpa [hij] using hget2
            have hs : s = s2 := by rw [hj] at hget; exact Option.some.inj hget
            exact ⟨hs ▸ hq, by simpa [hs] using hp⟩

/-- Witness for C4 as amended: in a concrete firstSuccess batch the
second statement's raw undefined entry reaches the session while the
gate's list is normalized. -/
theorem c4_amended_witness :
    (0 = 0 → "s0" = (⟨"s0", some ([] : List JsValue)⟩ : Statement).query ∧
      ([] : List JsValue) =
        toArray false (⟨"s0", some []⟩ : Statement).params) ∧
    (∀ s : Statement, 1 ≤ 0 →
      ([⟨"s0", some []⟩, ⟨"s1", some [.vundefined]⟩] :
        List Statement).get? 0 = some s →
      "s0" = s.query ∧ ([] : List JsValue) = s.params.getD []) :=
  (c4_amended_normalization false).2.2.2.2.2.2.2.2.2.2.1
    (fun _ => .ok 1) ⟨"s0", some []⟩ ⟨"s1", some [.vundefined]⟩ [] 0 "s0" []
    (by simp [execBatchM, collectFrom, dispatchEvs, toArray])

/-- Counterexample to claim C5: a duplicate-key error (engine code
"23505") surfaced on the query path is re-raised without the normalized
classification field — query rejects the engine error unchanged and
never calls buildError. -/
theorem c5_counterexample :
    (queryM false (.error ⟨"23505", none⟩) "q" none none none).2 =
      .error ⟨"23505", none⟩ ∧
    (⟨"23505", none⟩ : JsError).error ≠ some "duplicate" :=
  ⟨rfl, fun h => nomatch h⟩

/-- Claim C5 as amended: an error with the duplicate-key engine code
"23505" is annotated with the classification field error = "duplicate"
before being re-raised by single exec (hence also by the
single-statement paths of both batch executors, which go through exec)
and by the multi-statement firstSuccess branch of execBatch; the query
path, the all-must-run branches of both executors, and the
multi-statement branches of execBatchWithClient re-raise the engine
error unchanged. -/
theorem c5_amended_duplicate_classify :
    (∀ e : JsError, e.code = "23505" →
      buildError e = { e with error := some "duplicate" }) ∧
    (∀ (sm : Bool) (sql : String) args (e : JsError), e.code = "23505" →
      (execM sm (.error e) sql args).2 =
        .error { e with error := some "duplicate" }) ∧
    (∀ (sm : Bool) (sql : String) args m bools (e : JsError),
      (queryM sm (.error e) sql args m bools).2 = .error e) ∧
    (∀ (sm : Bool) (oracle : Engine) (s0 s1 : Statement) rest (e : JsError),
      oracle 0 = .error e → e.code = "23505" →
      (execBatchM sm oracle (s0 :: s1 :: rest) true).2 =
        .error { e with error := some "duplicate" }) ∧
    (∀ (sm : Bool) (oracle : Engine) (s0 s1 : Statement) rest (e : JsError)
      (n : Int), oracle 0 = .ok n → n ≠ 0 →
      collectFrom oracle 1 (rest.length + 1) = .error e → e.code = "23505" →
      (execBatchM sm oracle (s0 :: s1 :: rest) true).2 =
        .error { e with error := some "duplicate" }) ∧
    (∀ (sm : Bool) (oracle : Engine) (s0 s1 : Statement) rest (e : JsError),
      oracle 0 = .error e →
      (execBatchM sm oracle (s0 :: s1 :: rest) false).2 = .error e) ∧
    (∀ (sm : Bool) (oracle : Engine) (s0 s1 : Statement) rest (e : JsError),
      oracle 0 = .error e →
      (execBatchWithClientM sm oracle (s0 :: s1 :: rest) true).2 = .error e) ∧
    (∀ (sm : Bool) (oracle : Engine) (s0 s1 : Statement) rest (e : JsError),
      oracle 0 = .error e →
      (execBatchWithClientM sm oracle (s0 :: s1 :: rest) false).2 = .error e) := by
  refine ⟨?_, ?_, ?_, ?_, ?_, ?_, ?_, ?_⟩
  · intro e hcode; simp [buildError, hcode]
  · intro sm sql args e hcode; simp [execM, buildError, hcode]
  · intro sm sql args m bools e; rfl
  · intro sm oracle s0 s1 rest e ho hcode
    simp [execBatchM, ho, buildError, hcode]
  · intro sm oracle s0 s1 rest e n ho hn hc hcode
    simp [execBatchM, ho, hn, hc, buildError, hcode]
  · intro sm oracle s0 s1 rest e ho
    have hc : collectFrom oracle 0 (rest.length + 1 + 1) = .error e :=
      collectFrom_err oracle e _ 0 0 (by omega) (by simpa using ho)
        (fun i hi => absurd hi (by omega))
    simp [execBatchM, hc]
  · intro sm oracle s0 s1 rest e ho
    simp [execBatchWithClientM, ho]
  · intro sm oracle s0 s1 rest e ho
    have hc : collectFrom oracle 0 (rest.length + 1 + 1) = .error e :=
      collectFrom_err oracle e _ 0 0 (by omega) (by simpa using ho)
        (fun i hi => absurd hi (by omega))
    simp [execBatchWithClientM, hc]

/-- Witness for C5 as amended, at a concrete duplicate-key error on
each path. -/
theorem c5_amended_witness :
    buildError ⟨"23505", none⟩ = ⟨"23505", some "duplicate"⟩ ∧
    (execM false (.error ⟨"23505", none⟩) "q" none).2 =
      .error ⟨"23505", some "duplicate"⟩ ∧
    (queryM false (.error ⟨"23505", none⟩) "q" none none none).2 =
      .error ⟨"23505", none⟩ ∧
    (execBatchM false (fun _ => .error ⟨"23505", none⟩)
      [⟨"a", none⟩, ⟨"b", none⟩] true).2 = .error ⟨"23505", some "duplicate"⟩ ∧
    (execBatchM false
      (fun i => if i = 0 then .ok 1 else .error ⟨"23505", none⟩)
      [⟨"a", none⟩, ⟨"b", none⟩] true).2 = .error ⟨"23505", some "duplicate"⟩ ∧
    (execBatchM false (fun _ => .error ⟨"23505", none⟩)
      [⟨"a", none⟩, ⟨"b", none⟩] false).2 = .error ⟨"23505", none⟩ ∧
    (execBatchWithClientM false (fun _ => .error ⟨"23505", none⟩)
      [⟨"a", none⟩, ⟨"b", none⟩] true).2 = .error ⟨"23505", none⟩ ∧
    (execBatchWithClientM false (fun _ => .error ⟨"23505", none⟩)
      [⟨"a", none⟩, ⟨"b", none⟩] false).2 = .error ⟨"23505", none⟩ :=
  ⟨c5_amended_duplicate_classify.1 ⟨"23505", none⟩ rfl,
   c5_amended_duplicate_classify.2.1 false "q" none ⟨"23505", none⟩ rfl,
   c5_amended_duplicate_classify.2.2.1 false "q" none none none
     ⟨"23505", none⟩,
   c5_amended_duplicate_classify.2.2.2.1 false (fun _ => .error ⟨"23505", none⟩)
     ⟨"a", none⟩ ⟨"b", none⟩ [] ⟨"23505", none⟩ rfl rfl,
   c5_amended_duplicate_classify.2.2.2.2.1 false
     (fun i => if i = 0 then .ok 1 else .error ⟨"23505", none⟩)
     ⟨"a", none⟩ ⟨"b", none⟩ [] ⟨"23505", none⟩ 1 rfl (by omega) rfl rfl,
   c5_amended_duplicate_classify.2.2.2.2.2.1 false
     (fun _ => .error ⟨"23505", none⟩) ⟨"a", none⟩ ⟨"b", none⟩ []
     ⟨"23505", none⟩ rfl,
   c5_amended_duplicate_classify.2.2.2.2.2.2.1 false
     (fun _ => .error ⟨"23505", none⟩) ⟨"a", none⟩ ⟨"b", none⟩ []
     ⟨"23505", none⟩ rfl,
   c5_amended_duplicate_classify.2.2.2.2.2.2.2 false
     (fun _ => .error ⟨"23505", none⟩) ⟨"a", none⟩ ⟨"b", none⟩ []
     ⟨"23505", none⟩ rfl⟩

/-- Claim C6: the empty statement list makes both executors resolve 0
at once with an empty trace — no session checkout, no begin; a
single-statement list is dispatched directly as the only command on the
session (no begin, no commit) and, when the statement succeeds, its
affected-row count is resolved.  In execBatch the single statement's
parameter list is pre-normalized at the call site and normalized again
inside exec; in execBatchWithClient it is normalized once inside
exec. -/
theorem c6_trivial_batches (sm : Bool) (oracle : Engine) (fs : Bool) :
    execBatchM sm oracle [] fs = ([], .ok (some 0)) ∧
    execBatchWithClientM sm oracle [] fs = ([], .ok (some 0)) ∧
    (∀ (s0 : Statement) (n : Int), oracle 0 = .ok n →
      execBatchM sm oracle [s0] fs =
        ([Ev.stmt 0 s0.query (toArray sm (some (toArray sm s0.params)))],
         .ok (some n)) ∧
      execBatchWithClientM sm oracle [s0] fs =
        ([Ev.stmt 0 s0.query (toArray sm s0.params)], .ok (some n))) := by
  refine ⟨rfl, rfl, fun s0 n h0 => ?_⟩
  simp [execBatchM, execBatchWithClientM, h0]

/-- Witness for C6 at a concrete single-statement batch (the empty-list
parts have no hypothesis; the single-statement part is applied at a
statement that affects 3 rows). -/
theorem c6_witness :
    execBatchM false (fun _ => .ok 3) [⟨"a", some [.vnull]⟩] true =
      ([Ev.stmt 0 "a" [.vnull]], .ok (some 3)) ∧
    execBatchWithClientM false (fun _ => .ok 3) [⟨"a", some [.vnull]⟩] true =
      ([Ev.stmt 0 "a" [.vnull]], .ok (some 3)) :=
  (c6_trivial_batches false (fun _ => .ok 3) true).2.2 ⟨"a", some [.vnull]⟩ 3 rfl

/-! ## Claims about the result post-processor -/

/-- Claim C7: for every row and boolean attribute without an explicit
true literal, a field value that is neither a native boolean nor
null/undefined is coerced to the boolean given by the recognized-truthy
test, which holds exactly when the stringified value is one of "true",
"1", "t", "y", "on" (for a string, literal case-sensitive membership;
for a number, exactly the number 1, whose stringification is "1"; dates
and objects stringify outside the set); in particular "Y" coerces to
false while "y" coerces to true, and a native boolean value is left
unchanged. -/
theorem c7_boolean_coercion :
    (∀ (row : Row) (name : String),
      isStable (lookupField row name) = false →
      lookupField (coerceOne ⟨name, none⟩ row) name =
        .vbool (recognizedTrue (lookupField row name))) ∧
    (∀ s, recognizedTrue (.vstr s) =
      (s == "true" || s == "1" || s == "t" || s == "y" || s == "on")) ∧
    (∀ n, recognizedTrue (.vnum n) = (n == 1)) ∧
    (∀ t, recognizedTrue (.vdate t) = false) ∧
    (∀ fields, recognizedTrue (.vobj fields) = false) ∧
    handleBool [[("flag", .vstr "Y")]] [⟨"flag", none⟩] =
      [[("flag", .vbool false)]] ∧
    handleBool [[("flag", .vstr "y")]] [⟨"flag", none⟩] =
      [[("flag", .vbool true)]] ∧
    (∀ (row : Row) (name : String) (b : Bool),
      lookupField row name = .vbool b → coerceOne ⟨name, none⟩ row = row) := by
  refine ⟨?_, fun s => rfl, fun n => rfl, fun t => rfl, fun fields => rfl,
    rfl, rfl, ?_⟩
  · intro row name h
    simp only [coerceOne, h, if_false]
    exact lookupField_objSet_self _ _ _
  · intro row name b h
    exact coerceOne_of_stable _ _ (by rw [h]; rfl)

/-- Witness for C7: the coercion parts applied at a concrete row
holding the string "on" and at a concrete row holding a native
boolean. -/
theorem c7_witness :
    lookupField (coerceOne ⟨"x", none⟩ [("x", .vstr "on")]) "x" =
      .vbool (recognizedTrue (lookupField [("x", .vstr "on")] "x")) ∧
    coerceOne ⟨"x", none⟩ [("x", .vbool false)] = [("x", .vbool false)] :=
  ⟨c7_boolean_coercion.1 [("x", .vstr "on")] "x" rfl,
   c7_boolean_coercion.2.2.2.2.2.2.2 [("x", .vbool false)] "x" false rfl⟩

/-- Claim C8: when both a field map and a non-empty boolean attribute
list are supplied, handleResults applies the rename step (mapArray)
first and the boolean-coercion step (handleBool) second, so coercion
operates on the renamed field names; concretely, a row field "a"
renamed to "flag" is coerced under the attribute name "flag". -/
theorem c8_rename_then_coerce :
    (∀ (r : List Row) (mm : StringMap) (bs : List Attribute), bs ≠ [] →
      handleResults r (some mm) (some bs) =
        handleBool (mapArray r (some mm)) bs) ∧
    handleResults [[("a", .vstr "y")]] (some [("a", "flag")])
      (some [⟨"flag", none⟩]) = [[("flag", .vbool true)]] := by
  constructor
  · intro r mm bs hbs
    have hlen : 0 < bs.length := by
      cases bs with
      | nil => exact absurd rfl hbs
      | cons b bs2 => simp
    simp [handleResults, hlen]
  · rfl

/-- Witness for C8 at a concrete row set, field map and attribute
list. -/
theorem c8_witness :
    handleResults [[("a", .vstr "y")]] (some [("a", "flag")])
        (some [⟨"flag", none⟩]) =
      handleBool (mapArray [[("a", .vstr "y")]] (some [("a", "flag")]))
        [⟨"flag", none⟩] :=
  c8_rename_then_coerce.1 [[("a", .vstr "y")]] [("a", "flag")]
    [⟨"flag", none⟩] (by simp)

/-- Claim C9: coerceBooleans is idempotent — applying handleBool twice
to any row set with any boolean attribute list yields the same result
as applying it once, since every listed field is a native boolean (or
was skipped as null/undefined/absent) after the first pass. -/
theorem c9_handleBool_idempotent (objs : List Row) (bools : List Attribute) :
    handleBool (handleBool objs bools) bools = handleBool objs bools := by
  by_cases hb : bools.isEmpty
  · simp [handleBool, hb]
  · simp only [handleBool, hb, Bool.false_eq_true, if_false, List.map_map]
    apply List.map_congr_left
    intro obj _
    exact foldl_coerce_of_stable bools _ (foldl_coerce_stable_all bools obj)

end Pg
